import Mathlib

/-!
Verification of src/js/cookies.js, a browser-side cookie consent manager.

Strings are modelled as lists of characters (`Str`).  The document cookie
header is a `Str`; the browser cookie store behind `document.cookie`
assignment is modelled as a list of name/value pairs (`Jar`).  Ambient
platform inputs (page protocol, the rendered expiration timestamp produced
by `new Date(...).toUTCString()`) are passed as explicit parameters.
-/

abbrev Str := List Char

/-- The space-stripping loop of `getCookie`:
`while (c.charAt(0) === ' ') c = c.substring(1, c.length)`. -/
def dropSpaces : Str → Str
  | [] => []
  | c :: rest => if c = ' ' then dropSpaces rest else c :: rest

/-- `document.cookie.split(';')`: splits at every separator, keeping empty
pieces, as the JS `String.prototype.split` does. -/
def splitOnSemi : Str → List Str
  | [] => [[]]
  | c :: rest =>
    if c = ';' then [] :: splitOnSemi rest
    else
      match splitOnSemi rest with
      | [] => [[c]]
      | s :: ss => (c :: s) :: ss

/-- `s.indexOf(pat) === 0`: `pat` occurs at position 0 of `s`. -/
def beginsWith : Str → Str → Bool
  | _, [] => true
  | [], _ :: _ => false
  | c :: cs, p :: ps => if p = c then beginsWith cs ps else false

/-- The scan loop of `getCookie` over the split cookie header: strip leading
spaces from each segment, return the remainder of the first segment that
starts with `nameEQ` (`c.substring(nameEQ.length, c.length)`), else null. -/
def getCookieLoop (nameEQ : Str) : List Str → Option Str
  | [] => none
  | c :: rest =>
    let cs := dropSpaces c
    if beginsWith cs nameEQ then some (cs.drop nameEQ.length)
    else getCookieLoop nameEQ rest

/-- `getCookie(name)` from src/js/cookies.js, with the ambient
`document.cookie` header passed explicitly:
`nameEQ = name + "="`, split the header on `';'`, scan linearly. -/
def getCookie (header q : Str) : Option Str :=
  getCookieLoop (q ++ ['=']) (splitOnSemi header)

/-- The pattern `"expires="`, the tail of the `"; expires="` attribute
marker written by `setCookie`. -/
def expiresPat : Str := "expires=".data

/-- The `"; expires="` attribute marker of `setCookie`. -/
def semiExpires : Str := ';' :: ' ' :: expiresPat

/-- The `" path=/"` piece of the `"; path=/"` attribute. -/
def pathChunk : Str := " path=/".data

/-- The `"; path=/"` attribute appended by `setCookie`. -/
def semiPath : Str := ';' :: pathChunk

/-- The `" Secure"` piece of the `"; Secure"` attribute. -/
def secureChunk : Str := " Secure".data

/-- The `"; Secure"` attribute appended by `setCookie` on https pages. -/
def semiSecure : Str := ';' :: secureChunk

/-- The `" SameSite="` piece of the `"; SameSite="` attribute. -/
def sameSiteChunk : Str := " SameSite=".data

/-- The `"; SameSite="` attribute marker appended by `setCookie`. -/
def semiSameSite : Str := ';' :: sameSiteChunk

/-- The cookie record string built by `setCookie(name, value, days, secure,
sameSite)`.  `days` is `none` when the argument is not supplied; `if (days)`
is JS-falsy for `0`, so `some 0` skips the expiration exactly like `none`.
`expStr` stands for the ambient `date.toUTCString()` rendering of the
computed expiration instant, `https` for
`window.location.protocol === 'https:'`, and `(value || "")` is the
JS-falsy-empty-string guard. -/
def setCookieString (n v : Str) (days : Option Int) (secure : Bool)
    (sameSite : Str) (https : Bool) (expStr : Str) : Str :=
  let expires : Str :=
    match days with
    | some d => if d = 0 then [] else semiExpires ++ expStr
    | none => []
  let v2 : Str := if v = [] then [] else v
  n ++ '=' :: v2 ++ expires ++ semiPath
    ++ (if secure && https then semiSecure else [])
    ++ semiSameSite ++ sameSite

/-- Whether a written cookie record carries an `expires` attribute: some
attribute segment (everything after the first `';'`-separated piece, with
leading spaces stripped) starts with `"expires="`. -/
def hasExpiresAttr (s : Str) : Bool :=
  List.any ((splitOnSemi s).drop 1) (fun seg => beginsWith (dropSpaces seg) expiresPat)

/-- JS truthiness of the `days` argument of `setCookie`: supplied and
nonzero. -/
def jsTruthyDays : Option Int → Bool
  | none => false
  | some d => !(d = 0 : Bool)

/-! ## The browser cookie store behind `document.cookie` assignment

Assigning a record string to `document.cookie` stores one cookie: the part
of the string before the first `';'` is the `name=value` pair (split at its
first `'='`); a cookie with the same name is overwritten in place, a new
name is appended.  Reading `document.cookie` renders the stored pairs as
`"n1=v1; n2=v2; ..."`.  This models the platform store the adapter in
src/js/cookies.js is written against. -/

abbrev Jar := List (Str × Str)

/-- The part of an assigned cookie string before its first `';'`. -/
def firstChunk : Str → Str
  | [] => []
  | c :: rest => if c = ';' then [] else c :: firstChunk rest

/-- The name part of a `name=value` chunk: everything before the first `'='`. -/
def chunkName : Str → Str
  | [] => []
  | c :: rest => if c = '=' then [] else c :: chunkName rest

/-- The value part of a `name=value` chunk: everything after the first `'='`. -/
def chunkValue : Str → Str
  | [] => []
  | c :: rest => if c = '=' then rest else chunkValue rest

/-- Store a pair: overwrite the cookie with the same name in place, else
append. -/
def upsert : Jar → Str → Str → Jar
  | [], n, v => [(n, v)]
  | (n2, v2) :: rest, n, v =>
    if n2 = n then (n, v) :: rest else (n2, v2) :: upsert rest n v

/-- The effect of `document.cookie = s` on the store. -/
def docCookieAssign (jar : Jar) (s : Str) : Jar :=
  let chunk := firstChunk s
  upsert jar (chunkName chunk) (chunkValue chunk)

/-- `setCookie` as a store transformer: build the record string and assign
it to `document.cookie`. -/
def setCookieJar (jar : Jar) (n v : Str) (days : Option Int) (secure : Bool)
    (sameSite : Str) (https : Bool) (expStr : Str) : Jar :=
  docCookieAssign jar (setCookieString n v days secure sameSite https expStr)

/-- Reading `document.cookie`: the stored pairs joined as
`"n1=v1; n2=v2; ..."`. -/
def renderJar : Jar → Str
  | [] => []
  | (n, v) :: [] => n ++ '=' :: v
  | (n, v) :: rest => n ++ '=' :: v ++ ';' :: ' ' :: renderJar rest

/-- First stored value under a name, by exact name equality. -/
def jarLookup : Jar → Str → Option Str
  | [], _ => none
  | (n2, v2) :: rest, n => if n2 = n then some v2 else jarLookup rest n

/-! ## The preference model and the consent controller -/

/-- The four-category preference set of `CookieConsent.preferences`. -/
structure Prefs where
  necessary : Bool
  functional : Bool
  analytics : Bool
  marketing : Bool
deriving DecidableEq

/-- The preference set the `CookieConsent` constructor builds: only
`necessary` true. -/
def defaultPrefs : Prefs :=
  { necessary := true, functional := false, analytics := false, marketing := false }

/-- The preference set `acceptAll` assigns: every category true. -/
def acceptAllPrefs : Prefs :=
  { necessary := true, functional := true, analytics := true, marketing := true }

/-- The preference set `rejectAll` assigns: only `necessary` true. -/
def rejectAllPrefs : Prefs :=
  { necessary := true, functional := false, analytics := false, marketing := false }

/-- The result of `JSON.parse` on a stored `cookie_preferences` string that
parsed: an object whose four category keys are each present with a boolean
or absent.  (Extra keys of the parsed object end up as extra properties of
the preferences object and touch no category, so they are not modelled;
category values of non-boolean JSON types do not arise from this system's
own writes.) -/
structure StoredPrefs where
  necessary : Option Bool
  functional : Option Bool
  analytics : Option Bool
  marketing : Option Bool
deriving DecidableEq

/-- The object spread `{ ...this.preferences, ...JSON.parse(prefs) }`: a key
present in the parsed object wins, an absent key keeps the current value. -/
def mergePrefs (p : Prefs) (o : StoredPrefs) : Prefs :=
  { necessary := o.necessary.getD p.necessary,
    functional := o.functional.getD p.functional,
    analytics := o.analytics.getD p.analytics,
    marketing := o.marketing.getD p.marketing }

/-- `CookieConsent.loadPreferences`, with the stored `cookie_preferences`
cookie passed explicitly: `none` when `getCookie` found no (truthy) value,
`some (Except.error ())` when `JSON.parse` throws (malformed JSON — caught,
`console.warn` logged), `some (Except.ok o)` when it parses.  Returns the
resulting preference set and whether a warning was logged; the function
itself never throws (the `try`/`catch` is the `Except.error` branch). -/
def loadPreferences (p : Prefs) (stored : Option (Except Unit StoredPrefs)) :
    Prefs × Bool :=
  match stored with
  | none => (p, false)
  | some (Except.error _) => (p, true)
  | some (Except.ok o) => (mergePrefs p o, false)

/-- The three optional-category enable routines `applyCookieSettings` can
invoke. -/
inductive EnableRoutine
  | functionalR
  | analyticsR
  | marketingR
deriving DecidableEq

/-- `CookieConsent.applyCookieSettings`, as the trace of enable routines it
invokes: `enableFunctionalCookies` when the `functional` flag is set,
`enableAnalytics` when `analytics` is set, `enableMarketing` when
`marketing` is set, in that order. -/
def applyCookieSettings (p : Prefs) : List EnableRoutine :=
  (if p.functional then [EnableRoutine.functionalR] else [])
    ++ (if p.analytics then [EnableRoutine.analyticsR] else [])
    ++ (if p.marketing then [EnableRoutine.marketingR] else [])

/-! ## The DOM surface the controller reads

Each element the controller looks up by id is either absent (`getElementById`
yields null) or present; a checkbox additionally carries its `checked`
state.  Operations return `Except Unit _`: `Except.error ()` models a thrown
TypeError from a property access on a null element. -/

/-- The DOM elements src/js/cookies.js looks up, plus the display state of
the banner and the modal. -/
structure Dom where
  banner : Bool
  modal : Bool
  functionalCb : Option Bool
  analyticsCb : Option Bool
  marketingCb : Option Bool
  acceptBtn : Bool
  rejectBtn : Bool
  settingsBtn : Bool
  saveBtn : Bool
  closeBtn : Bool
  themeSel : Bool
  bannerDisplay : Bool
  modalDisplay : Bool
deriving DecidableEq

/-- Whether an operation threw. -/
def throwsEx {α : Type} : Except Unit α → Bool
  | Except.error _ => true
  | Except.ok _ => false

/-- `CookieConsent.showConsentBanner`: guarded element access
(`if (banner)`), so an absent banner is skipped. -/
def showConsentBanner (d : Dom) : Except Unit Dom :=
  Except.ok (if d.banner then { d with bannerDisplay := true } else d)

/-- `CookieConsent.hideConsentBanner`: guarded element access. -/
def hideConsentBanner (d : Dom) : Except Unit Dom :=
  Except.ok (if d.banner then { d with bannerDisplay := false } else d)

/-- `CookieConsent.closeSettingsModal`: guarded element access. -/
def closeSettingsModal (d : Dom) : Except Unit Dom :=
  Except.ok (if d.modal then { d with modalDisplay := false } else d)

/-- `CookieConsent.openSettingsModal`: the modal lookup is guarded, but the
three checkbox updates inside are plain `document.getElementById(...).checked
= ...` with no optional access, so an absent checkbox while the modal is
present throws. -/
def openSettingsModal (d : Dom) (p : Prefs) : Except Unit Dom :=
  if d.modal then
    match d.functionalCb with
    | none => Except.error ()
    | some _ =>
      match d.analyticsCb with
      | none => Except.error ()
      | some _ =>
        match d.marketingCb with
        | none => Except.error ()
        | some _ =>
          Except.ok { d with
            functionalCb := some p.functional,
            analyticsCb := some p.analytics,
            marketingCb := some p.marketing,
            modalDisplay := true }
  else Except.ok d

/-- `document.getElementById(id)?.checked || false`: absent element or
unchecked box reads as false. -/
def readCheckedOrFalse (el : Option Bool) : Bool := el.getD false

/-- The checkbox-reading part of `CookieConsent.saveCustomPreferences`:
optional access on each of the three checkboxes, `necessary` untouched. -/
def saveCustomPrefsRead (d : Dom) (p : Prefs) : Except Unit Prefs :=
  Except.ok { p with
    functional := readCheckedOrFalse d.functionalCb,
    analytics := readCheckedOrFalse d.analyticsCb,
    marketing := readCheckedOrFalse d.marketingCb }

/-- The controls `setupEventListeners` can bind. -/
inductive Control
  | acceptC
  | rejectC
  | settingsC
  | saveC
  | closeC
  | themeC
deriving DecidableEq

/-- `CookieConsent.setupEventListeners`: every lookup uses
`getElementById(...)?.addEventListener`, so each absent element just yields
no binding.  Returns the list of controls bound. -/
def setupEventListeners (d : Dom) : Except Unit (List Control) :=
  Except.ok ((if d.acceptBtn then [Control.acceptC] else [])
    ++ (if d.rejectBtn then [Control.rejectC] else [])
    ++ (if d.settingsBtn then [Control.settingsC] else [])
    ++ (if d.saveBtn then [Control.saveC] else [])
    ++ (if d.closeBtn then [Control.closeC] else [])
    ++ (if d.themeSel then [Control.themeC] else []))

/-! ## Functional-gated user preference features -/

/-- Ambient page inputs of a `setCookie` call made by the controller:
the page protocol and the rendered expiration timestamp. -/
structure Env where
  https : Bool
  expStr : Str
deriving DecidableEq

/-- The `SameSite` default `'Strict'` of `setCookie`. -/
def strictStr : Str := "Strict".data

/-- The cookie name `'site_theme'`. -/
def siteThemeName : Str := "site_theme".data

/-- The cookie name `'preferred_language'`. -/
def prefLangName : Str := "preferred_language".data

/-- The cookie name `'font_size'`. -/
def fontSizeName : Str := "font_size".data

/-- A 365-day `setCookie` call as the controller makes it:
`setCookie(name, value, 365)` with the defaults `secure = true`,
`sameSite = 'Strict'`. -/
def setCookie365 (env : Env) (jar : Jar) (n v : Str) : Jar :=
  setCookieJar jar n v (some 365) true strictStr env.https env.expStr

/-- The class suffix `"-theme"` of the regex `\w*-theme`. -/
def themeSuffix : Str := "-theme".data

/-- `s` ends with `pat`. -/
def endsWith (s pat : Str) : Bool := beginsWith s.reverse pat.reverse

/-- A body class token the regex `\w*-theme/g` of `applyTheme` erases,
modelled at class-token granularity. -/
def isThemeClass (c : Str) : Bool := endsWith c themeSuffix

/-- Document state the functional features touch: the body class list, the
document language, the root font size, and the theme selector value
(`none` when the `theme-selector` element is absent). -/
structure DocState where
  bodyClasses : List Str
  docLang : Str
  rootFontSize : Str
  themeSel : Option Str
deriving DecidableEq

/-- `CookieConsent.applyTheme`: strip the `\w*-theme` classes from the body
(modelled at class-token granularity), add `theme + '-theme'`, and update
the theme selector value when that element is present. -/
def applyTheme (doc : DocState) (theme : Str) : DocState :=
  { doc with
    bodyClasses :=
      (List.filter (fun c => !(isThemeClass c)) doc.bodyClasses) ++ [theme ++ themeSuffix],
    themeSel := doc.themeSel.map (fun _ => theme) }

/-- `CookieConsent.saveTheme`: gated by the `functional` flag; when set,
writes the `site_theme` cookie for 365 days and applies the theme to the
document; otherwise does nothing. -/
def saveTheme (env : Env) (p : Prefs) (theme : Str) (jar : Jar) (doc : DocState) :
    Jar × DocState :=
  if p.functional then (setCookie365 env jar siteThemeName theme, applyTheme doc theme)
  else (jar, doc)

/-- `CookieConsent.setLanguage`: gated by the `functional` flag; when set,
writes the `preferred_language` cookie for 365 days and sets
`document.documentElement.lang`. -/
def setLanguage (env : Env) (p : Prefs) (lang : Str) (jar : Jar) (doc : DocState) :
    Jar × DocState :=
  if p.functional then (setCookie365 env jar prefLangName lang, { doc with docLang := lang })
  else (jar, doc)

/-- `CookieConsent.setFontSize`: gated by the `functional` flag; when set,
writes the `font_size` cookie for 365 days and sets the root font size. -/
def setFontSize (env : Env) (p : Prefs) (size : Str) (jar : Jar) (doc : DocState) :
    Jar × DocState :=
  if p.functional then
    (setCookie365 env jar fontSizeName size, { doc with rootFontSize := size })
  else (jar, doc)

/-! ## Analytics gating and the global entry points -/

/-- Observable effects of `CookieConsent.trackEvent`: whether the event was
logged, and whether it was forwarded to the `gtag` hook. -/
structure TrackEffects where
  logged : Bool
  gtagCalled : Bool
deriving DecidableEq

/-- `CookieConsent.trackEvent`: gated by the `analytics` flag; when set, logs
the event and forwards it to `gtag` when that global is present
(`typeof gtag !== 'undefined'`); otherwise does nothing. -/
def ccTrackEvent (p : Prefs) (gtagPresent : Bool) : TrackEffects :=
  if p.analytics then { logged := true, gtagCalled := gtagPresent }
  else { logged := false, gtagCalled := false }

/-- The global `window.trackEvent`: forwards to
`window.cookieConsent.trackEvent` when the controller exists
(`if (window.cookieConsent)`), else does nothing.  `cc` is the preference
state of `window.cookieConsent`, `none` when the controller has not been
constructed. -/
def windowTrackEvent (cc : Option Prefs) (gtagPresent : Bool) : TrackEffects :=
  match cc with
  | some p => ccTrackEvent p gtagPresent
  | none => { logged := false, gtagCalled := false }

/-- The global `window.saveUserPreference(key, value, days = 365)`: writes
the cookie only when the controller exists and its `functional` flag is set
(`window.cookieConsent && window.cookieConsent.preferences[FUNCTIONAL]`). -/
def windowSaveUserPreference (cc : Option Prefs) (env : Env) (jar : Jar)
    (k v : Str) (days : Int) : Jar :=
  match cc with
  | some p =>
    if p.functional then setCookieJar jar k v (some days) true strictStr env.https env.expStr
    else jar
  | none => jar

/-! ## Wellformed cookie headers

`getCookie` is specified against headers that are `';'`-separated lists of
`name=value` segments with leading whitespace per segment; a segment is a
`Seg`.  `firstMatch` is the specified result: the value of the first segment
whose name equals the argument exactly. -/

/-- One segment of a cookie header: leading whitespace, name, value. -/
structure Seg where
  ws : Str
  nm : Str
  vl : Str

/-- Render one segment as `ws ++ nm ++ "=" ++ vl`. -/
def renderSeg (s : Seg) : Str := s.ws ++ s.nm ++ '=' :: s.vl

/-- Join segments with `';'` into a cookie header string. -/
def renderHeader : List Seg → Str
  | [] => []
  | s :: [] => renderSeg s
  | s :: rest => renderSeg s ++ ';' :: renderHeader rest

/-- The specified lookup: the value of the first segment whose name equals
`q` exactly, else none. -/
def firstMatch (q : Str) : List Seg → Option Str
  | [] => none
  | s :: rest => if s.nm = q then some s.vl else firstMatch q rest

/-- Every character of `s` is a space. -/
def allSpaces (s : Str) : Prop := ∀ c ∈ s, c = ' '

/-- `s` is free of `';'`. -/
def noSemi (s : Str) : Prop := ∀ c ∈ s, c ≠ ';'

/-- `s` is free of `'='`. -/
def noEq (s : Str) : Prop := ∀ c ∈ s, c ≠ '='

/-- `s` does not start with a space. -/
def noLeadSpace (s : Str) : Prop := ∀ c ∈ s.take 1, c ≠ ' '

/-- A wellformed segment: all-space leading whitespace, a name free of
separators that does not start with a space, a value free of `';'`. -/
def wfSeg (s : Seg) : Prop :=
  allSpaces s.ws ∧ noSemi s.nm ∧ noEq s.nm ∧ noLeadSpace s.nm ∧ noSemi s.vl

/-- A wellformed cookie store: names free of `';'` and `'='` and not starting
with a space, values free of `';'`. -/
def wfJar (jar : Jar) : Prop :=
  ∀ p ∈ jar, noSemi p.1 ∧ noEq p.1 ∧ noLeadSpace p.1 ∧ noSemi p.2

instance (s : Str) : Decidable (allSpaces s) := by unfold allSpaces; infer_instance

instance (s : Str) : Decidable (noSemi s) := by unfold noSemi; infer_instance

instance (s : Str) : Decidable (noEq s) := by unfold noEq; infer_instance

instance (s : Str) : Decidable (noLeadSpace s) := by unfold noLeadSpace; infer_instance

instance (s : Seg) : Decidable (wfSeg s) := by unfold wfSeg; infer_instance

instance (jar : Jar) : Decidable (wfJar jar) := by unfold wfJar; infer_instance

/-! ## Auxiliary definitions used by the statements below -/

/-- Join chunks with `';'`: the inverse view of `splitOnSemi` on
separator-free chunks. -/
def joinSemi : List Str → Str
  | [] => []
  | c :: [] => c
  | c :: rest => c ++ ';' :: joinSemi rest

/-- The segments of a rendered cookie store: the browser renders
`"n1=v1; n2=v2; ..."`, so the first segment has no leading whitespace and
each later one a single leading space. -/
def segsOfJar : Jar → List Seg
  | [] => []
  | (n, v) :: rest =>
    Seg.mk [] n v :: List.map (fun p => Seg.mk [' '] p.1 p.2) rest

/-- A parsed stored-preferences object that maps `necessary` to false. -/
def necessaryFalseStored : StoredPrefs :=
  { necessary := some false, functional := none, analytics := none, marketing := none }

/-- A preference state with only the `functional` optional category set. -/
def funcOnlyPrefs : Prefs :=
  { necessary := true, functional := true, analytics := false, marketing := false }

/-- A preference state with only the `analytics` optional category set. -/
def analyticsOnlyPrefs : Prefs :=
  { necessary := true, functional := false, analytics := true, marketing := false }

/-- A concrete ambient page environment: http page, empty rendered
timestamp. -/
def env0 : Env := { https := false, expStr := [] }

/-- A concrete starting document state. -/
def doc0 : DocState := { bodyClasses := [], docLang := [], rootFontSize := [], themeSel := none }

/-- A DOM with the settings modal present but the `functional-cookies`
checkbox absent. -/
def domNoCb : Dom :=
  { banner := false, modal := true, functionalCb := none, analyticsCb := some true,
    marketingCb := some true, acceptBtn := true, rejectBtn := true, settingsBtn := true,
    saveBtn := true, closeBtn := true, themeSel := true,
    bannerDisplay := false, modalDisplay := false }

/-- A concrete wellformed two-segment cookie header. -/
def segsW : List Seg :=
  [{ ws := [' '], nm := ['a'], vl := ['1'] }, { ws := [], nm := ['b'], vl := ['2'] }]

/-- A cookie name that starts with a space (free of `';'` and `'='`). -/
def spaceName : Str := [' ', 'a']

/-- A concrete wellformed one-cookie store. -/
def jarW : Jar := [(['x'], ['y'])]

/-! ## Helper lemmas about the string scanner -/

theorem dropSpaces_cons_ne {c : Char} (h : c ≠ ' ') (s : Str) :
    dropSpaces (c :: s) = c :: s := by
  simp [dropSpaces, h]

theorem dropSpaces_spaces_append {ws : Str} (h : allSpaces ws) (s : Str) :
    dropSpaces (ws ++ s) = dropSpaces s := by
  induction ws with
  | nil => rfl
  | cons c ws2 ih =>
    have hc : c = ' ' := h c (List.mem_cons_self c ws2)
    have h2 : allSpaces ws2 := fun x hx => h x (List.mem_cons_of_mem c hx)
    simp [hc, dropSpaces, ih h2]

theorem dropSpaces_wsPair {ws nm : Str} (hws : allSpaces ws) (hlead : noLeadSpace nm)
    (vl : Str) : dropSpaces (ws ++ nm ++ '=' :: vl) = nm ++ '=' :: vl := by
  rw [List.append_assoc, dropSpaces_spaces_append hws]
  cases nm with
  | nil => exact dropSpaces_cons_ne (by decide) vl
  | cons c nm2 =>
    have hc : c ≠ ' ' := hlead c (by simp [noLeadSpace])
    simp [List.cons_append, dropSpaces_cons_ne hc]

theorem beginsWith_append_self : ∀ (p t : Str), beginsWith (p ++ t) p = true := by
  intro p t
  induction p with
  | nil => simp [beginsWith]
  | cons c ps ih => simp [beginsWith, ih]

theorem beginsWith_nil_pair (q : Str) : beginsWith [] (q ++ ['=']) = false := by
  cases q <;> rfl

theorem beginsWith_pair_eq : ∀ (q nm vl : Str), noEq q → noEq nm →
    beginsWith (nm ++ '=' :: vl) (q ++ ['=']) = true → nm = q := by
  intro q
  induction q with
  | nil =>
    intro nm vl _ hnm h
    cases nm with
    | nil => rfl
    | cons c nm2 =>
      exfalso
      simp only [List.cons_append, List.nil_append, beginsWith] at h
      by_cases hc : ('=' : Char) = c
      · exact hnm c (List.mem_cons_self c nm2) hc.symm
      · simp [hc] at h
  | cons a q2 ih =>
    intro nm vl hq hnm h
    cases nm with
    | nil =>
      exfalso
      simp only [List.nil_append, List.cons_append, beginsWith] at h
      by_cases ha : a = '='
      · exact hq a (List.mem_cons_self a q2) ha
      · simp [ha] at h
    | cons d nm2 =>
      simp only [List.cons_append, beginsWith] at h
      by_cases had : a = d
      · have h2 : beginsWith (nm2 ++ '=' :: vl) (q2 ++ ['=']) = true := by
          simpa [had] using h
        have h3 : nm2 = q2 :=
          ih nm2 vl (fun x hx => hq x (List.mem_cons_of_mem a hx))
            (fun x hx => hnm x (List.mem_cons_of_mem d hx)) h2
        rw [had, h3]
      · simp [had] at h

theorem dropLenAppend : ∀ (xs ys : List Char), (xs ++ ys).drop xs.length = ys := by
  intro xs ys
  induction xs with
  | nil => rfl
  | cons c xs2 ih => simp [ih]

/-! ## Helper lemmas about splitting the header -/

theorem splitOnSemi_noSemi {s : Str} (h : noSemi s) : splitOnSemi s = [s] := by
  induction s with
  | nil => rfl
  | cons c rest ih =>
    have hc : c ≠ ';' := h c (List.mem_cons_self c rest)
    have h2 : noSemi rest := fun x hx => h x (List.mem_cons_of_mem c hx)
    simp [splitOnSemi, hc, ih h2]

theorem splitOnSemi_append {xs : Str} (hx : noSemi xs) (ys : Str) :
    splitOnSemi (xs ++ ';' :: ys) = xs :: splitOnSemi ys := by
  induction xs with
  | nil => simp [splitOnSemi]
  | cons c xs2 ih =>
    have hc : c ≠ ';' := hx c (List.mem_cons_self c xs2)
    have h2 : noSemi xs2 := fun x hx2 => hx x (List.mem_cons_of_mem c hx2)
    simp [splitOnSemi, hc, ih h2]

theorem splitOnSemi_joinSemi : ∀ {chunks : List Str},
    (∀ c ∈ chunks, noSemi c) → chunks ≠ [] →
    splitOnSemi (joinSemi chunks) = chunks
  | [], _, hne => absurd rfl hne
  | c :: [], h, _ => by
    simp [joinSemi, splitOnSemi_noSemi (h c (List.mem_cons_self c []))]
  | c :: d :: rest, h, _ => by
    have h1 : noSemi c := h c (List.mem_cons_self c (d :: rest))
    have h2 : ∀ x ∈ d :: rest, noSemi x := fun x hx => h x (List.mem_cons_of_mem c hx)
    simp [joinSemi, splitOnSemi_append h1,
      splitOnSemi_joinSemi h2 (List.cons_ne_nil d rest)]

theorem allSpaces_noSemi {ws : Str} (h : allSpaces ws) : noSemi ws := by
  intro c hc
  rw [h c hc]
  decide

theorem noSemi_append {xs ys : Str} (hx : noSemi xs) (hy : noSemi ys) :
    noSemi (xs ++ ys) := by
  intro c hc
  rcases List.mem_append.1 hc with h | h
  · exact hx c h
  · exact hy c h

theorem noSemi_pair {nm vl : Str} (hn : noSemi nm) (hv : noSemi vl) :
    noSemi (nm ++ '=' :: vl) := by
  refine noSemi_append hn ?_
  intro c hc
  rcases List.mem_cons.1 hc with rfl | h
  · decide
  · exact hv c h

theorem noSemi_renderSeg {s : Seg} (h : wfSeg s) : noSemi (renderSeg s) := by
  obtain ⟨h1, h2, _, _, h5⟩ := h
  rw [renderSeg, List.append_assoc]
  exact noSemi_append (allSpaces_noSemi h1) (noSemi_pair h2 h5)

/-! ## The scan loop on a wellformed segment -/

theorem getCookieLoop_cons_seg (ws nm vl q : Str) (rest : List Str)
    (hws : allSpaces ws) (hnmE : noEq nm) (hlead : noLeadSpace nm) (hq : noEq q) :
    getCookieLoop (q ++ ['=']) (renderSeg (Seg.mk ws nm vl) :: rest)
      = if nm = q then some vl else getCookieLoop (q ++ ['=']) rest := by
  simp only [getCookieLoop, renderSeg]
  rw [dropSpaces_wsPair hws hlead vl]
  by_cases hqn : nm = q
  · subst hqn
    have hb : beginsWith (nm ++ '=' :: vl) (nm ++ ['=']) = true := by
      have h1 := beginsWith_append_self (nm ++ ['=']) vl
      simpa [List.append_assoc] using h1
    have hd : (nm ++ '=' :: vl).drop (nm ++ ['=']).length = vl := by
      have h1 : nm ++ '=' :: vl = (nm ++ ['=']) ++ vl := by simp
      rw [h1, dropLenAppend]
    simp [hb, hd]
  · have hb : beginsWith (nm ++ '=' :: vl) (q ++ ['=']) = false := by
      cases hbv : beginsWith (nm ++ '=' :: vl) (q ++ ['=']) with
      | false => rfl
      | true => exact absurd (beginsWith_pair_eq q nm vl hq hnmE hbv) hqn
    simp [hb, hqn]

/-! ## The main scanner lemma: `getCookie` on a wellformed header -/

theorem getCookie_renderHeader : ∀ (segs : List Seg) (q : Str),
    (∀ s ∈ segs, wfSeg s) → noEq q →
    getCookie (renderHeader segs) q = firstMatch q segs := by
  intro segs
  induction segs with
  | nil =>
    intro q _ _
    simp [getCookie, renderHeader, splitOnSemi, getCookieLoop, dropSpaces,
      beginsWith_nil_pair, firstMatch]
  | cons s rest ih =>
    intro q hwf hq
    obtain ⟨ws, nm, vl⟩ := s
    obtain ⟨hws, hnmS, hnmE, hlead, hvlS⟩ := hwf _ (List.mem_cons_self _ _)
    have hrest : ∀ t ∈ rest, wfSeg t := fun t ht => hwf t (List.mem_cons_of_mem _ ht)
    have hsegfree : noSemi (renderSeg (Seg.mk ws nm vl)) :=
      noSemi_renderSeg ⟨hws, hnmS, hnmE, hlead, hvlS⟩
    cases rest with
    | nil =>
      show getCookieLoop (q ++ ['=']) (splitOnSemi (renderHeader [Seg.mk ws nm vl])) = _
      rw [show renderHeader [Seg.mk ws nm vl] = renderSeg (Seg.mk ws nm vl) from rfl,
        splitOnSemi_noSemi hsegfree,
        getCookieLoop_cons_seg ws nm vl q [] hws hnmE hlead hq]
      simp [firstMatch, getCookieLoop]
    | cons t rs =>
      show getCookieLoop (q ++ ['=']) (splitOnSemi (renderHeader (Seg.mk ws nm vl :: t :: rs))) = _
      rw [show renderHeader (Seg.mk ws nm vl :: t :: rs)
            = renderSeg (Seg.mk ws nm vl) ++ ';' :: renderHeader (t :: rs) from rfl,
        splitOnSemi_append hsegfree,
        getCookieLoop_cons_seg ws nm vl q _ hws hnmE hlead hq]
      have hih := ih q hrest hq
      rw [show firstMatch q (Seg.mk ws nm vl :: t :: rs)
            = if nm = q then some vl else firstMatch q (t :: rs) from rfl]
      by_cases hqn : nm = q
      · simp [hqn]
      · simp only [hqn, if_neg]
        exact hih

/-! ## Helper lemmas about the cookie store -/

theorem renderHeader_map_sp : ∀ (p : Str × Str) (rs : Jar),
    renderHeader (Seg.mk [' '] p.1 p.2 :: List.map (fun x => Seg.mk [' '] x.1 x.2) rs)
      = ' ' :: renderJar (p :: rs) := by
  intro p rs
  induction rs generalizing p with
  | nil =>
    obtain ⟨n, v⟩ := p
    simp [renderHeader, renderSeg, renderJar]
  | cons t rs2 ih =>
    obtain ⟨n, v⟩ := p
    simp only [List.map_cons]
    rw [show renderHeader (Seg.mk [' '] n v :: Seg.mk [' '] t.1 t.2
          :: List.map (fun x => Seg.mk [' '] x.1 x.2) rs2)
        = renderSeg (Seg.mk [' '] n v) ++ ';'
          :: renderHeader (Seg.mk [' '] t.1 t.2
            :: List.map (fun x => Seg.mk [' '] x.1 x.2) rs2) from rfl]
    rw [show (Seg.mk [' '] t.1 t.2 :: List.map (fun x => Seg.mk [' '] x.1 x.2) rs2)
        = (Seg.mk [' '] t.1 t.2 :: List.map (fun x => Seg.mk [' '] x.1 x.2) rs2) from rfl,
      ih t]
    simp [renderSeg, renderJar, List.append_assoc]

theorem renderJar_eq : ∀ jar : Jar, renderJar jar = renderHeader (segsOfJar jar)
  | [] => rfl
  | (n, v) :: rest => by
    cases rest with
    | nil => simp [renderJar, segsOfJar, renderHeader, renderSeg]
    | cons t rs =>
      rw [segsOfJar]
      simp only [List.map_cons]
      rw [show renderHeader (Seg.mk [] n v :: Seg.mk [' '] t.1 t.2
            :: List.map (fun p => Seg.mk [' '] p.1 p.2) rs)
          = renderSeg (Seg.mk [] n v) ++ ';'
            :: renderHeader (Seg.mk [' '] t.1 t.2
              :: List.map (fun p => Seg.mk [' '] p.1 p.2) rs) from rfl,
        renderHeader_map_sp t rs]
      simp [renderJar, renderSeg, List.append_assoc]

theorem firstMatch_map_sp (q : Str) : ∀ (rs : Jar),
    firstMatch q (List.map (fun x => Seg.mk [' '] x.1 x.2) rs) = jarLookup rs q
  | [] => rfl
  | (n, v) :: rs2 => by
    simp [firstMatch, jarLookup, firstMatch_map_sp q rs2]

theorem firstMatch_segsOfJar (q : Str) : ∀ (jar : Jar),
    firstMatch q (segsOfJar jar) = jarLookup jar q
  | [] => rfl
  | (n, v) :: rest => by
    simp [segsOfJar, firstMatch, jarLookup, firstMatch_map_sp q rest]

theorem wf_segsOfJar : ∀ {jar : Jar}, wfJar jar → ∀ s ∈ segsOfJar jar, wfSeg s := by
  intro jar h s hs
  cases jar with
  | nil => simp [segsOfJar] at hs
  | cons p rest =>
    obtain ⟨n, v⟩ := p
    rcases List.mem_cons.1 hs with rfl | hs2
    · obtain ⟨h1, h2, h3, h4⟩ := h (n, v) (List.mem_cons_self _ _)
      exact ⟨by intro c hc; simp at hc, h1, h2, h3, h4⟩
    · obtain ⟨x, hx, rfl⟩ := List.mem_map.1 hs2
      obtain ⟨h1, h2, h3, h4⟩ := h x (List.mem_cons_of_mem _ hx)
      refine ⟨?_, h1, h2, h3, h4⟩
      intro c hc
      simpa using hc

theorem upsert_wf : ∀ {jar : Jar} {n v : Str}, wfJar jar →
    noSemi n → noEq n → noLeadSpace n → noSemi v → wfJar (upsert jar n v) := by
  intro jar n v h hn1 hn2 hn3 hv
  induction jar with
  | nil =>
    intro p hp
    simp [upsert] at hp
    rw [hp]
    exact ⟨hn1, hn2, hn3, hv⟩
  | cons q rest ih =>
    obtain ⟨n2, v2⟩ := q
    have hhead := h (n2, v2) (List.mem_cons_self _ _)
    have htail : wfJar rest := fun p hp => h p (List.mem_cons_of_mem _ hp)
    by_cases he : n2 = n
    · intro p hp
      simp [upsert, he] at hp
      rcases hp with rfl | hp2
      · exact ⟨hn1, hn2, hn3, hv⟩
      · exact htail p hp2
    · intro p hp
      simp [upsert, he] at hp
      rcases hp with rfl | hp2
      · exact hhead
      · exact ih htail p hp2

theorem jarLookup_upsert : ∀ (jar : Jar) (n v : Str),
    jarLookup (upsert jar n v) n = some v := by
  intro jar n v
  induction jar with
  | nil => simp [upsert, jarLookup]
  | cons q rest ih =>
    obtain ⟨n2, v2⟩ := q
    by_cases he : n2 = n
    · simp [upsert, he, jarLookup]
    · simp [upsert, he, jarLookup, ih]

/-! ## Decomposing the record string written by `setCookie` -/

theorem ifEmpty_eq (v : Str) : (if v = [] then ([] : Str) else v) = v := by
  split <;> simp_all

theorem firstChunk_append : ∀ {xs : Str}, noSemi xs → ∀ ys,
    firstChunk (xs ++ ';' :: ys) = xs := by
  intro xs hx ys
  induction xs with
  | nil => simp [firstChunk]
  | cons c xs2 ih =>
    have hc : c ≠ ';' := hx c (List.mem_cons_self c xs2)
    have h2 : noSemi xs2 := fun x hx2 => hx x (List.mem_cons_of_mem c hx2)
    simp [firstChunk, hc, ih h2]

theorem chunkName_pair : ∀ {nm : Str}, noEq nm → ∀ vl,
    chunkName (nm ++ '=' :: vl) = nm := by
  intro nm hn vl
  induction nm with
  | nil => simp [chunkName]
  | cons c nm2 ih =>
    have hc : c ≠ '=' := hn c (List.mem_cons_self c nm2)
    have h2 : noEq nm2 := fun x hx => hn x (List.mem_cons_of_mem c hx)
    simp [chunkName, hc, ih h2]

theorem chunkValue_pair : ∀ {nm : Str}, noEq nm → ∀ vl,
    chunkValue (nm ++ '=' :: vl) = vl := by
  intro nm hn vl
  induction nm with
  | nil => simp [chunkValue]
  | cons c nm2 ih =>
    have hc : c ≠ '=' := hn c (List.mem_cons_self c nm2)
    have h2 : noEq nm2 := fun x hx => hn x (List.mem_cons_of_mem c hx)
    simp [chunkValue, hc, ih h2]

theorem setCookieString_decomp (n v : Str) (days : Option Int) (sec : Bool)
    (ss : Str) (https : Bool) (e : Str) :
    ∃ t, setCookieString n v days sec ss https e = (n ++ '=' :: v) ++ ';' :: t := by
  cases days with
  | none =>
    refine ⟨pathChunk ++ (if sec && https then semiSecure else []) ++ semiSameSite ++ ss, ?_⟩
    simp [setCookieString, ifEmpty_eq, semiPath, List.append_assoc]
  | some d =>
    by_cases hd : d = 0
    · refine ⟨pathChunk ++ (if sec && https then semiSecure else []) ++ semiSameSite ++ ss, ?_⟩
      simp [setCookieString, ifEmpty_eq, hd, semiPath, List.append_assoc]
    · refine ⟨' ' :: expiresPat ++ e ++ semiPath
        ++ (if sec && https then semiSecure else []) ++ semiSameSite ++ ss, ?_⟩
      simp [setCookieString, ifEmpty_eq, hd, semiExpires, List.append_assoc]

theorem setCookieJar_eq_upsert {n v : Str} (hnE : noEq n) (hnS : noSemi n)
    (hvS : noSemi v) (jar : Jar) (days : Option Int) (sec : Bool) (ss : Str)
    (https : Bool) (e : Str) :
    setCookieJar jar n v days sec ss https e = upsert jar n v := by
  obtain ⟨t, ht⟩ := setCookieString_decomp n v days sec ss https e
  rw [setCookieJar, docCookieAssign, ht, firstChunk_append (noSemi_pair hnS hvS) t,
    chunkName_pair hnE v, chunkValue_pair hnE v]

/-! ## The attribute segments of a written record -/

theorem hasExpires_joinSemi {chunks : List Str} (h : ∀ c ∈ chunks, noSemi c)
    (hne : chunks ≠ []) :
    hasExpiresAttr (joinSemi chunks)
      = List.any (chunks.drop 1) (fun seg => beginsWith (dropSpaces seg) expiresPat) := by
  rw [hasExpiresAttr, splitOnSemi_joinSemi h hne]

theorem predExpiresChunk (e : Str) :
    beginsWith (dropSpaces (' ' :: (expiresPat ++ e))) expiresPat = true := by
  have h1 : dropSpaces (' ' :: (expiresPat ++ e)) = expiresPat ++ e := rfl
  rw [h1]
  exact beginsWith_append_self expiresPat e

theorem predPathChunk : beginsWith (dropSpaces pathChunk) expiresPat = false := by decide

theorem predSecureChunk : beginsWith (dropSpaces secureChunk) expiresPat = false := by decide

theorem predSameSiteChunk (ss : Str) :
    beginsWith (dropSpaces (sameSiteChunk ++ ss)) expiresPat = false := rfl

/-! ## C9: the expiration attribute of a written record -/

/-- C9 (amended): `setCookie` appends an expiration timestamp to the cookie
record if and only if the `days` argument is supplied AND JS-truthy
(nonzero): when `days` is absent the record has no `expires` attribute
(session cookie), and a supplied `days = 0` is falsy under `if (days)`, so
it also writes no `expires` attribute. -/
theorem c9_expires_iff_truthy (n v ss e : Str) (days : Option Int) (sec https : Bool)
    (h1 : noSemi n) (h2 : noSemi v) (h3 : noSemi ss) (h4 : noSemi e) :
    hasExpiresAttr (setCookieString n v days sec ss https e) = jsTruthyDays days := by
  have hP : noSemi (n ++ '=' :: v) := noSemi_pair h1 h2
  have hExp : noSemi (' ' :: (expiresPat ++ e)) := by
    intro c hc
    rcases List.mem_cons.1 hc with rfl | hc2
    · decide
    · rcases List.mem_append.1 hc2 with hc3 | hc3
      · exact (by decide : noSemi expiresPat) c hc3
      · exact h4 c hc3
  have hSS : noSemi (sameSiteChunk ++ ss) := noSemi_append (by decide) h3
  have hPath : noSemi pathChunk := by decide
  have hSec : noSemi secureChunk := by decide
  cases days with
  | none =>
    cases hsh : sec && https with
    | true =>
      have hrec : setCookieString n v none sec ss https e
          = joinSemi [n ++ '=' :: v, pathChunk, secureChunk, sameSiteChunk ++ ss] := by
        simp [setCookieString, joinSemi, ifEmpty_eq, hsh, semiPath, semiSecure,
          semiSameSite, List.append_assoc]
      have hfree : ∀ c ∈ [n ++ '=' :: v, pathChunk, secureChunk, sameSiteChunk ++ ss],
          noSemi c := by
        intro c hc
        simp only [List.mem_cons, List.not_mem_nil, or_false] at hc
        rcases hc with rfl | rfl | rfl | rfl
        exacts [hP, hPath, hSec, hSS]
      rw [hrec, hasExpires_joinSemi hfree (by simp)]
      simp [predPathChunk, predSecureChunk, predSameSiteChunk, jsTruthyDays]
    | false =>
      have hrec : setCookieString n v none sec ss https e
          = joinSemi [n ++ '=' :: v, pathChunk, sameSiteChunk ++ ss] := by
        simp [setCookieString, joinSemi, ifEmpty_eq, hsh, semiPath,
          semiSameSite, List.append_assoc]
      have hfree : ∀ c ∈ [n ++ '=' :: v, pathChunk, sameSiteChunk ++ ss], noSemi c := by
        intro c hc
        simp only [List.mem_cons, List.not_mem_nil, or_false] at hc
        rcases hc with rfl | rfl | rfl
        exacts [hP, hPath, hSS]
      rw [hrec, hasExpires_joinSemi hfree (by simp)]
      simp [predPathChunk, predSameSiteChunk, jsTruthyDays]
  | some d =>
    by_cases hd : d = 0
    · cases hsh : sec && https with
      | true =>
        have hrec : setCookieString n v (some d) sec ss https e
            = joinSemi [n ++ '=' :: v, pathChunk, secureChunk, sameSiteChunk ++ ss] := by
          simp [setCookieString, joinSemi, ifEmpty_eq, hd, hsh, semiPath, semiSecure,
            semiSameSite, List.append_assoc]
        have hfree : ∀ c ∈ [n ++ '=' :: v, pathChunk, secureChunk, sameSiteChunk ++ ss],
            noSemi c := by
          intro c hc
          simp only [List.mem_cons, List.not_mem_nil, or_false] at hc
          rcases hc with rfl | rfl | rfl | rfl
          exacts [hP, hPath, hSec, hSS]
        rw [hrec, hasExpires_joinSemi hfree (by simp)]
        simp [predPathChunk, predSecureChunk, predSameSiteChunk, jsTruthyDays, hd]
      | false =>
        have hrec : setCookieString n v (some d) sec ss https e
            = joinSemi [n ++ '=' :: v, pathChunk, sameSiteChunk ++ ss] := by
          simp [setCookieString, joinSemi, ifEmpty_eq, hd, hsh, semiPath,
            semiSameSite, List.append_assoc]
        have hfree : ∀ c ∈ [n ++ '=' :: v, pathChunk, sameSiteChunk ++ ss], noSemi c := by
          intro c hc
          simp only [List.mem_cons, List.not_mem_nil, or_false] at hc
          rcases hc with rfl | rfl | rfl
          exacts [hP, hPath, hSS]
        rw [hrec, hasExpires_joinSemi hfree (by simp)]
        simp [predPathChunk, predSameSiteChunk, jsTruthyDays, hd]
    · cases hsh : sec && https with
      | true =>
        have hrec : setCookieString n v (some d) sec ss https e
            = joinSemi [n ++ '=' :: v, ' ' :: (expiresPat ++ e), pathChunk, secureChunk,
                sameSiteChunk ++ ss] := by
          simp [setCookieString, joinSemi, ifEmpty_eq, hd, hsh, semiExpires, semiPath,
            semiSecure, semiSameSite, List.append_assoc]
        have hfree : ∀ c ∈ [n ++ '=' :: v, ' ' :: (expiresPat ++ e), pathChunk,
            secureChunk, sameSiteChunk ++ ss], noSemi c := by
          intro c hc
          simp only [List.mem_cons, List.not_mem_nil, or_false] at hc
          rcases hc with rfl | rfl | rfl | rfl | rfl
          exacts [hP, hExp, hPath, hSec, hSS]
        rw [hrec, hasExpires_joinSemi hfree (by simp)]
        simp [predExpiresChunk, jsTruthyDays, hd]
      | false =>
        have hrec : setCookieString n v (some d) sec ss https e
            = joinSemi [n ++ '=' :: v, ' ' :: (expiresPat ++ e), pathChunk,
                sameSiteChunk ++ ss] := by
          simp [setCookieString, joinSemi, ifEmpty_eq, hd, hsh, semiExpires, semiPath,
            semiSameSite, List.append_assoc]
        have hfree : ∀ c ∈ [n ++ '=' :: v, ' ' :: (expiresPat ++ e), pathChunk,
            sameSiteChunk ++ ss], noSemi c := by
          intro c hc
          simp only [List.mem_cons, List.not_mem_nil, or_false] at hc
          rcases hc with rfl | rfl | rfl | rfl
          exacts [hP, hExp, hPath, hSS]
        rw [hrec, hasExpires_joinSemi hfree (by simp)]
        simp [predExpiresChunk, jsTruthyDays, hd]

/-! ## The claims -/

/-- C1: evaluation of the code at the failing input.  The claim (and the
`// Always true` comment in the source) say `necessary` is true in every
reachable preference set, including after `loadPreferences` merges an
arbitrary stored `cookie_preferences` object; but the object spread in
`loadPreferences` lets a stored `necessary: false` override the pinned
default, so the loaded preference set has `necessary = false`. -/
theorem c1_loadPreferences_necessary_overridden :
    (loadPreferences defaultPrefs (some (Except.ok necessaryFalseStored))).1.necessary
      = false := by
  decide

/-- C2 counterexample: with the settings modal present but the
`functional-cookies` checkbox absent, `openSettingsModal` throws (the
checkbox update is a plain property access on null), contradicting the
claim that no missing DOM element ever causes a throw. -/
theorem c2_openSettingsModal_throws :
    throwsEx (openSettingsModal domNoCb defaultPrefs) = true := by decide

/-- C2 (amended): every DOM-reading controller operation tolerates absent
elements without throwing — banner show/hide, modal close, event binding,
and the checkbox reads of `saveCustomPreferences` — except
`openSettingsModal`: it throws exactly when the modal element is present
and at least one of the three preference checkboxes is absent. -/
theorem c2_dom_tolerance_amended (d : Dom) (p : Prefs) :
    throwsEx (showConsentBanner d) = false
    ∧ throwsEx (hideConsentBanner d) = false
    ∧ throwsEx (closeSettingsModal d) = false
    ∧ throwsEx (setupEventListeners d) = false
    ∧ throwsEx (saveCustomPrefsRead d p) = false
    ∧ (throwsEx (openSettingsModal d p) = true
        ↔ d.modal = true
          ∧ (d.functionalCb = none ∨ d.analyticsCb = none ∨ d.marketingCb = none)) := by
  refine ⟨rfl, rfl, rfl, rfl, rfl, ?_⟩
  cases hm : d.modal with
  | false => simp [openSettingsModal, hm, throwsEx]
  | true =>
    cases hf : d.functionalCb <;> cases ha : d.analyticsCb <;> cases hb : d.marketingCb <;>
      simp [openSettingsModal, hm, hf, ha, hb, throwsEx]

/-- C3 counterexample: with `functional = true` but `analytics = false`,
`window.trackEvent` performs no effect, and with `analytics = true` but
`functional = false`, `window.saveUserPreference` writes nothing — so the
claimed gates (trackEvent by `functional`, saveUserPreference by
`analytics`) are wrong: the code pairs them the other way around. -/
theorem c3_gating_swapped_cex :
    windowTrackEvent (some funcOnlyPrefs) true = { logged := false, gtagCalled := false }
    ∧ windowSaveUserPreference (some analyticsOnlyPrefs) env0 [] ['k'] ['v'] 365 = [] := by
  decide

/-- C3 (amended): `window.trackEvent` is gated by the `analytics` flag and
`window.saveUserPreference` by the `functional` flag: each performs its
effect when its gate is true and no-ops when it is false. -/
theorem c3_gating_amended (p : Prefs) (g : Bool) (env : Env) (jar : Jar)
    (k v : Str) (days : Int) :
    (windowTrackEvent (some p) g).logged = p.analytics
    ∧ (p.analytics = false →
        windowTrackEvent (some p) g = { logged := false, gtagCalled := false })
    ∧ (p.functional = true →
        windowSaveUserPreference (some p) env jar k v days
          = setCookieJar jar k v (some days) true strictStr env.https env.expStr)
    ∧ (p.functional = false →
        windowSaveUserPreference (some p) env jar k v days = jar) := by
  refine ⟨?_, ?_, ?_, ?_⟩
  · cases ha : p.analytics <;> simp [windowTrackEvent, ccTrackEvent, ha]
  · intro ha; simp [windowTrackEvent, ccTrackEvent, ha]
  · intro hf; simp [windowSaveUserPreference, hf]
  · intro hf; simp [windowSaveUserPreference, hf]

/-- C3 witness: the amended gating at concrete inputs — a full-consent state
writes the cookie through `saveUserPreference`, and a reject-all state makes
`trackEvent` a no-op. -/
theorem c3_gating_witness :
    windowSaveUserPreference (some acceptAllPrefs) env0 [] ['k'] ['v'] 365
      = setCookieJar [] ['k'] ['v'] (some 365) true strictStr env0.https env0.expStr
    ∧ windowTrackEvent (some rejectAllPrefs) true = { logged := false, gtagCalled := false } :=
  ⟨(c3_gating_amended acceptAllPrefs true env0 [] ['k'] ['v'] 365).2.2.1 rfl,
    (c3_gating_amended rejectAllPrefs true env0 [] ['k'] ['v'] 365).2.1 rfl⟩

/-- C4: `applyCookieSettings` invokes the enable routine of each optional
category if and only if that category's flag is true; after `rejectAll` it
triggers none of the three, after `acceptAll` all three. -/
theorem c4_applyCookieSettings_gating (p : Prefs) :
    ((EnableRoutine.functionalR ∈ applyCookieSettings p) ↔ p.functional = true)
    ∧ ((EnableRoutine.analyticsR ∈ applyCookieSettings p) ↔ p.analytics = true)
    ∧ ((EnableRoutine.marketingR ∈ applyCookieSettings p) ↔ p.marketing = true)
    ∧ applyCookieSettings rejectAllPrefs = []
    ∧ applyCookieSettings acceptAllPrefs
        = [EnableRoutine.functionalR, EnableRoutine.analyticsR, EnableRoutine.marketingR] := by
  obtain ⟨n, f, a, m⟩ := p
  cases n <;> cases f <;> cases a <;> cases m <;> decide

/-- C5 counterexample: a header whose single segment has leading whitespace
(a tab) and name `a`, for which `getCookie` of `a` returns null rather than
the segment's value — the scanner strips only space characters, not
arbitrary whitespace. -/
theorem c5_tab_whitespace_cex :
    Char.isWhitespace '\t' = true
    ∧ getCookie ('\t' :: ['a', '=', 'b']) ['a'] = none := by decide

/-- C5 (amended): on every cookie header that is a `';'`-separated list of
`name=value` segments with arbitrary leading SPACES per segment (names free
of `';'`/`'='` and not starting with a space, values free of `';'`),
`getCookie(name)` returns the value of the first segment whose name matches
the argument exactly — case-sensitive, no prefix aliasing — and null when
no segment matches. -/
theorem c5_getCookie_amended (segs : List Seg) (q : Str)
    (h : ∀ s ∈ segs, wfSeg s) (hq : noEq q) :
    getCookie (renderHeader segs) q = firstMatch q segs :=
  getCookie_renderHeader segs q h hq

/-- C5 witness: the amended scanner contract at a concrete two-segment
header. -/
theorem c5_getCookie_witness :
    getCookie (renderHeader segsW) ['b'] = firstMatch ['b'] segsW :=
  c5_getCookie_amended segsW ['b'] (by decide) (by decide)

/-- C6 counterexample: the name `" a"` (a space then `a`) is free of `';'`
and `'='`, yet after `setCookie(" a", "b")` the read `getCookie(" a")`
returns null, not `"b"`: the scanner strips leading spaces from each
segment, so a name that starts with a space can never match. -/
theorem c6_leading_space_name_cex :
    noSemi spaceName ∧ noEq spaceName
    ∧ getCookie (renderJar (setCookieJar [] spaceName ['b'] (some 365) true strictStr
        false [])) spaceName = none := by
  decide

/-- C6 (amended): for every name and value free of `';'` and `'='`, with the
name additionally not starting with a space, and over any wellformed cookie
store, `setCookie(name, value)` followed by `getCookie(name)` returns
exactly the value (write/read round-trip). -/
theorem c6_roundTrip_amended (jar : Jar) (n v : Str) (days : Option Int) (sec : Bool)
    (ss : Str) (https : Bool) (e : Str)
    (h1 : noSemi n) (h2 : noEq n) (h3 : noLeadSpace n) (h4 : noSemi v) (_hv2 : noEq v)
    (hjar : wfJar jar) :
    getCookie (renderJar (setCookieJar jar n v days sec ss https e)) n = some v := by
  rw [setCookieJar_eq_upsert h2 h1 h4, renderJar_eq,
    getCookie_renderHeader _ n (wf_segsOfJar (upsert_wf hjar h1 h2 h3 h4)) h2,
    firstMatch_segsOfJar, jarLookup_upsert]

/-- C6 witness: the round-trip at a concrete store, name and value. -/
theorem c6_roundTrip_witness :
    getCookie (renderJar (setCookieJar jarW ['a'] ['1'] (some 365) true strictStr
      false [])) ['a'] = some ['1'] :=
  c6_roundTrip_amended jarW ['a'] ['1'] (some 365) true strictStr false []
    (by decide) (by decide) (by decide) (by decide) (by decide) (by decide)

/-- C7: a malformed stored `cookie_preferences` value is caught: the load
logs a warning, keeps the default preference set built by the constructor,
and returns normally (the `Except.error` branch is totalised by the
`try`/`catch`). -/
theorem c7_malformed_json_defaults :
    loadPreferences defaultPrefs (some (Except.error ())) = (defaultPrefs, true) := by
  decide

/-- C9 counterexample: a supplied `days = 0` writes a record identical to
the no-`days` record, carrying no expiration attribute — contradicting the
claim that every supplied numeric `days` (including 0) yields an expiration
timestamp. -/
theorem c9_days_zero_cex :
    setCookieString ['a'] ['b'] (some 0) true strictStr true ['X']
      = setCookieString ['a'] ['b'] none true strictStr true ['X']
    ∧ hasExpiresAttr (setCookieString ['a'] ['b'] (some 0) true strictStr true ['X'])
        = false := by
  decide

/-- C9 witness: the amended expiration contract at a concrete record with a
truthy `days`. -/
theorem c9_expires_witness :
    hasExpiresAttr (setCookieString ['a'] ['b'] (some 365) true strictStr true ['X'])
      = jsTruthyDays (some 365) :=
  c9_expires_iff_truthy ['a'] ['b'] strictStr ['X'] (some 365) true true
    (by decide) (by decide) (by decide) (by decide)

/-- C8: `saveTheme`, `setLanguage` and `setFontSize` are each gated by the
`functional` flag: when it is false they are silent no-ops (no cookie
written, document unchanged); when it is true each persists its value as a
365-day cookie and applies it to the document immediately. -/
theorem c8_functional_gating (env : Env) (p : Prefs) (t l s : Str) (jar : Jar)
    (doc : DocState) :
    (p.functional = false →
        saveTheme env p t jar doc = (jar, doc)
        ∧ setLanguage env p l jar doc = (jar, doc)
        ∧ setFontSize env p s jar doc = (jar, doc))
    ∧ (p.functional = true →
        saveTheme env p t jar doc = (setCookie365 env jar siteThemeName t, applyTheme doc t)
        ∧ setLanguage env p l jar doc
            = (setCookie365 env jar prefLangName l, { doc with docLang := l })
        ∧ setFontSize env p s jar doc
            = (setCookie365 env jar fontSizeName s, { doc with rootFontSize := s })) := by
  constructor
  · intro hf
    exact ⟨by simp [saveTheme, hf], by simp [setLanguage, hf], by simp [setFontSize, hf]⟩
  · intro hf
    exact ⟨by simp [saveTheme, hf], by simp [setLanguage, hf], by simp [setFontSize, hf]⟩

/-- C8 witness: both branches of the gate at concrete inputs — the default
(functional off) state leaves store and document untouched; the full-consent
state writes the `site_theme` cookie and applies the theme. -/
theorem c8_functional_gating_witness :
    saveTheme env0 defaultPrefs ['d'] [] doc0 = ([], doc0)
    ∧ saveTheme env0 acceptAllPrefs ['d'] [] doc0
        = (setCookie365 env0 [] siteThemeName ['d'], applyTheme doc0 ['d']) :=
  ⟨((c8_functional_gating env0 defaultPrefs ['d'] [] [] [] doc0).1 rfl).1,
    ((c8_functional_gating env0 acceptAllPrefs ['d'] [] [] [] doc0).2 rfl).1⟩

/-- C10: calling the global `window.trackEvent` or
`window.saveUserPreference` before the consent controller is constructed
(`window.cookieConsent` absent) is a silent no-op: no event effect, no
cookie write, and no exception (both globals guard on the controller's
presence). -/
theorem c10_globals_before_construction (g : Bool) (env : Env) (jar : Jar)
    (k v : Str) (days : Int) :
    windowTrackEvent none g = { logged := false, gtagCalled := false }
    ∧ windowSaveUserPreference none env jar k v days = jar :=
  ⟨rfl, rfl⟩
